import Mathlib

/-!
Shallow embedding of the preview/build/terminal core of the visualise-tool
Electron main process (src/electron/main.js and the execute-build handler
continuation), together with theorems settling the frozen claims.

Conventions of the embedding:
* JavaScript strings are Lean `String`s; per-character work happens on
  `List Char` via `String.data`.
* The Node `path.join` is modelled as separator concatenation
  (`pathJoin a b = a ++ "/" ++ b`); POSIX path conventions are assumed
  (`path.isAbsolute p` is `p.startsWith "/"`).
* The filesystem is an explicit list of existing file paths; filesystem
  writes are modelled as always succeeding and are returned as an explicit
  list of (path, content) pairs.
* Async/await code is sequential in the source (each await completes before
  the next statement), so it is embedded as ordinary sequential state
  passing; externally visible actions (closing a listener, binding a
  listener, killing a process, writing to a pty) are emitted as event lists.
-/

namespace VT

/-! ## Retrying call client (main.js, fetchWithRetry) -/

/-- One outcome of a single `fetch` attempt: an HTTP response with a status
code, or a network-level error (the promise rejects). -/
inductive FetchOutcome where
  | http (status : Nat)
  | netError
  deriving DecidableEq, Repr

/-- Embedding of `fetchWithRetry(url, options, retries = 3, backoff = 1000)`.
The successive outcomes of the underlying `fetch` calls are supplied as a
list; the result is the response surfaced to the caller (`Except.ok status`,
or `Except.error ()` when the final network error is rethrown) paired with
the list of waits (`await delay(backoff)`) performed, in order.  `none`
means the supplied outcome list was exhausted before the code returned. -/
def fetchWithRetry : List FetchOutcome → Nat → Nat → Option (Except Unit Nat × List Nat)
  | [], _, _ => none
  | FetchOutcome.http s :: rest, retries, backoff =>
    if s = 503 ∧ 0 < retries then
      match fetchWithRetry rest (retries - 1) (backoff * 2) with
      | some (r, waits) => some (r, backoff :: waits)
      | none => none
    else
      some (Except.ok s, [])
  | FetchOutcome.netError :: rest, retries, backoff =>
    if 0 < retries then
      match fetchWithRetry rest (retries - 1) (backoff * 2) with
      | some (r, waits) => some (r, backoff :: waits)
      | none => none
    else
      some (Except.error (), [])

/-! ## Claim C4 -/

/-- C4: a call whose underlying fetches return exactly three consecutive
HTTP 503 responses followed by a non-503 response performs exactly three
retries, waiting 1000ms, 2000ms and 4000ms (the backoff doubles, so the
waits are strictly increasing), and the final response is returned to the
caller. -/
theorem fetchWithRetry_three_503_then_success (s : Nat) (rest : List FetchOutcome)
    (hs : s ≠ 503) :
    fetchWithRetry
        (FetchOutcome.http 503 :: FetchOutcome.http 503 :: FetchOutcome.http 503 ::
          FetchOutcome.http s :: rest) 3 1000
      = some (Except.ok s, [1000, 2000, 4000])
    ∧ List.Chain' (· < ·) [1000, 2000, 4000] := by
  refine ⟨?_, by norm_num⟩
  simp only [fetchWithRetry]
  norm_num

/-- Witness for C4 at the concrete success status 200. -/
theorem fetchWithRetry_three_503_then_success_witness :
    fetchWithRetry
        (FetchOutcome.http 503 :: FetchOutcome.http 503 :: FetchOutcome.http 503 ::
          FetchOutcome.http 200 :: []) 3 1000
      = some (Except.ok 200, [1000, 2000, 4000]) :=
  (fetchWithRetry_three_503_then_success 200 [] (by decide)).1

/-! ## Claim C9 -/

/-- C9 counterexample: an HTTP 500 response (a 5xx) is surfaced to the
caller immediately, with an empty wait list — it is not retried at all,
although the claim states every 5xx is retried with backoff up to the
retry budget. -/
theorem fetchWithRetry_500_not_retried :
    fetchWithRetry [FetchOutcome.http 500, FetchOutcome.http 200] 3 1000
      = some (Except.ok 500, []) := by
  simp only [fetchWithRetry]
  norm_num

/-- C9 amended: only HTTP 503 responses and network-level errors are
retried with exponential backoff up to the retry budget before the failure
is surfaced (a stream of 503s exhausts the three retries and the last 503
response is then returned; a stream of network errors exhausts the three
retries and the last error is rethrown). -/
theorem fetchWithRetry_transient_retried_to_budget (rest : List FetchOutcome) :
    fetchWithRetry
        (FetchOutcome.http 503 :: FetchOutcome.http 503 :: FetchOutcome.http 503 ::
          FetchOutcome.http 503 :: rest) 3 1000
      = some (Except.ok 503, [1000, 2000, 4000])
    ∧ fetchWithRetry
        (FetchOutcome.netError :: FetchOutcome.netError :: FetchOutcome.netError ::
          FetchOutcome.netError :: rest) 3 1000
      = some (Except.error (), [1000, 2000, 4000]) := by
  constructor <;> (simp only [fetchWithRetry]; norm_num)

/-! ## Terminal session registry (main.js, terminal-* ipc handlers)

The `terminals` JavaScript `Map` (id → { ptyProcess, webContents }) is
modelled as an association list from session id to a pty handle; JS `Map`
keys are unique, which the embedding does not need to assume because the
handlers only use `get`/`delete`. -/

/-- The terminal registry: session id paired with the pty process handle. -/
abbrev TerminalRegistry := List (Nat × Nat)

/-- `terminals.get(id)` on the registry. -/
def registryGet (m : TerminalRegistry) (id : Nat) : Option Nat :=
  (m.find? (fun e => e.1 = id)).map (fun e => e.2)

/-- `terminals.delete(id)` on the registry. -/
def registryDelete (m : TerminalRegistry) (id : Nat) : TerminalRegistry :=
  m.filter (fun e => ¬ e.1 = id)

/-- Externally visible action of a terminal handler on the underlying pty. -/
inductive TerminalEffect where
  | ptyWrite (handle : Nat) (data : String)
  | ptyResize (handle cols rows : Nat)
  | ptyKill (handle : Nat)
  deriving DecidableEq, Repr

/-- Embedding of the `terminal-write` handler: look the id up; if an entry
with a pty process exists, write to it, otherwise do nothing.  The handler
is fire-and-forget and has no error path. -/
def terminalWrite (m : TerminalRegistry) (id : Nat) (data : String) :
    TerminalRegistry × List TerminalEffect :=
  match registryGet m id with
  | some h => (m, [TerminalEffect.ptyWrite h data])
  | none => (m, [])

/-- Embedding of the `terminal-resize` handler: look the id up; if present,
resize the pty (resize failures are caught and logged in the source, so no
error propagates), otherwise do nothing. -/
def terminalResize (m : TerminalRegistry) (id cols rows : Nat) :
    TerminalRegistry × List TerminalEffect :=
  match registryGet m id with
  | some h => (m, [TerminalEffect.ptyResize h cols rows])
  | none => (m, [])

/-- Embedding of the `terminal-dispose` handler: kill the pty if an entry
exists, then delete the id from the registry unconditionally. -/
def terminalDispose (m : TerminalRegistry) (id : Nat) :
    TerminalRegistry × List TerminalEffect :=
  let evs := match registryGet m id with
    | some h => [TerminalEffect.ptyKill h]
    | none => []
  (registryDelete m id, evs)

/-- An id absent from the registry is not found. -/
theorem registryGet_delete_self (m : TerminalRegistry) (id : Nat) :
    registryGet (registryDelete m id) id = none := by
  induction m with
  | nil => rfl
  | cons e rest ih =>
    by_cases he : e.1 = id
    · simpa [registryDelete, registryGet, he] using ih
    · simpa [registryDelete, registryGet, he] using ih

/-- Deleting an id that is not in the registry leaves it unchanged. -/
theorem registryDelete_of_not_mem (m : TerminalRegistry) (id : Nat)
    (h : registryGet m id = none) : registryDelete m id = m := by
  induction m with
  | nil => rfl
  | cons e rest ih =>
    by_cases he : e.1 = id
    · simp [registryGet, List.find?, he] at h
    · simp only [registryGet, List.find?, he] at h
      simp only [registryDelete, List.filter]
      have : (¬ e.1 = id) = True := by simp [he]
      simp only [he, decide_not, decide_eq_false, not_false_iff, Bool.not_false, List.filter]
      have hrest : registryDelete rest id = rest := by
        apply ih
        simpa [registryGet] using h
      simpa [registryDelete] using hrest

/-! ## Claim C6 -/

/-- C6: for a session id absent from the registry, `terminal-write`,
`terminal-resize` and `terminal-dispose` are silent no-ops — the registry
is unchanged and no pty effect (and no error) is produced; moreover a
second `terminal-dispose` of the same id is a no-op, and a
`terminal-write` after a dispose is dropped. -/
theorem terminal_unknown_session_noop (m : TerminalRegistry) (id : Nat)
    (data : String) (cols rows : Nat) :
    (registryGet m id = none →
      terminalWrite m id data = (m, [])
      ∧ terminalResize m id cols rows = (m, [])
      ∧ terminalDispose m id = (m, []))
    ∧ terminalDispose (terminalDispose m id).1 id = ((terminalDispose m id).1, [])
    ∧ terminalWrite (terminalDispose m id).1 id data = ((terminalDispose m id).1, []) := by
  refine ⟨fun h => ⟨?_, ?_, ?_⟩, ?_, ?_⟩
  · simp [terminalWrite, h]
  · simp [terminalResize, h]
  · simp [terminalDispose, h, registryDelete_of_not_mem m id h]
  · have h1 : registryGet (registryDelete m id) id = none := registryGet_delete_self m id
    have h2 := registryDelete_of_not_mem (registryDelete m id) id h1
    simp [terminalDispose, h1, h2]
  · have h1 : registryGet (registryDelete m id) id = none := registryGet_delete_self m id
    simp [terminalDispose, terminalWrite, h1]

/-- Witness for C6: a registry holding only session 1; operations on the
unknown id 2 are no-ops, and dispose of 1 twice / write after dispose are
no-ops with no effects. -/
theorem terminal_unknown_session_noop_witness :
    (terminalWrite [(1, 10)] 2 "ls" = ([(1, 10)], [])
      ∧ terminalResize [(1, 10)] 2 80 24 = ([(1, 10)], [])
      ∧ terminalDispose [(1, 10)] 2 = ([(1, 10)], []))
    ∧ terminalDispose (terminalDispose [(1, 10)] 1).1 1
        = ((terminalDispose [(1, 10)] 1).1, [])
    ∧ terminalWrite (terminalDispose [(1, 10)] 1).1 1 "ls"
        = ((terminalDispose [(1, 10)] 1).1, []) := by
  have h := terminal_unknown_session_noop [(1, 10)] 2 "ls" 80 24
  have h1 := terminal_unknown_session_noop [(1, 10)] 1 "ls" 80 24
  exact ⟨h.1 (by decide), h1.2.1, h1.2.2⟩

/-! ## Preview orchestration state (main.js, preview server globals)

The module-level mutable variables `previewServer`, `previewPort`,
`devProcess` and `devProcessInfo` become an explicit state record.  The
externally visible actions (closing the bound express listener, binding a
new one, killing the supervised child process) are emitted as an ordered
event list; `await`ed steps complete before the following statement runs,
so the event order is the order in which the actions take effect. -/

/-- `devProcessInfo = { cwd, script, startedByApp }`. -/
structure DevProcessInfo where
  cwd : String
  script : String
  startedByApp : Bool
  deriving DecidableEq, Repr

/-- The orchestrator globals: the bound preview listener (identified by its
port, `previewServer`/`previewPort`) and the supervised dev process
(`devProcess` handle plus `devProcessInfo`). -/
structure OrchState where
  previewServer : Option Nat
  devProcess : Option Nat
  devProcessInfo : Option DevProcessInfo
  deriving DecidableEq, Repr

/-- Externally visible orchestrator action, in program order. -/
inductive OrchEvent where
  | closeListener (port : Nat)
  | bindListener (port : Nat)
  | killProcess (handle : Nat)
  deriving DecidableEq, Repr

/-- Embedding of `stopExistingPreviewServer`: if a listener is bound, await
its close callback and clear `previewServer`/`previewPort`; otherwise do
nothing. -/
def stopExistingPreviewServer (s : OrchState) : OrchState × List OrchEvent :=
  match s.previewServer with
  | some p => ({ s with previewServer := none }, [OrchEvent.closeListener p])
  | none => (s, [])

/-- Embedding of `stopDevProcess`: kill the supervised process only when
one is tracked and `devProcessInfo.startedByApp` is true (the kill is
wrapped in try/catch, so it never throws), then clear both references
unconditionally. -/
def stopDevProcess (s : OrchState) : OrchState × List OrchEvent :=
  let evs := match s.devProcess, s.devProcessInfo with
    | some h, some info => if info.startedByApp then [OrchEvent.killProcess h] else []
    | _, _ => []
  ({ s with devProcess := none, devProcessInfo := none }, evs)

/-- How a given `start-preview-server` invocation proceeds after the
initial teardown, abstracting the branch conditions (static resolution and
package.json contents) that pick it:
* `devServe`: a dev-server URL is returned (reused, external, or freshly
  spawned and awaited) — no express listener is bound;
* `needsRuntime`: the spawned dev script never answered, so the handler
  runs `stopDevProcess` and returns the `needsRuntime` error;
* `bindStatic port`: a static root was resolved (or the raw folder is
  served) and an express listener is bound on `port`. -/
inductive PreviewFlow where
  | devServe (url : String)
  | needsRuntime
  | bindStatic (port : Nat)
  deriving DecidableEq, Repr

/-- Embedding of the `start-preview-server` handler's state effects: it
first awaits `stopExistingPreviewServer()`, and only afterwards either
returns a dev-server URL or binds the new listener and records it. -/
def startPreviewServerSteps (flow : PreviewFlow) (s : OrchState) :
    OrchState × List OrchEvent :=
  let r1 := stopExistingPreviewServer s
  match flow with
  | PreviewFlow.devServe _ => r1
  | PreviewFlow.needsRuntime =>
    let r2 := stopDevProcess r1.1
    (r2.1, r1.2 ++ r2.2)
  | PreviewFlow.bindStatic port =>
    ({ r1.1 with previewServer := some port }, r1.2 ++ [OrchEvent.bindListener port])

/-- Embedding of the `stop-preview-server` handler: await
`stopExistingPreviewServer()`, then `stopDevProcess()`, and return
`{ success: true }` (neither step can throw). -/
def stopPreviewServerHandler (s : OrchState) : OrchState × List OrchEvent × Bool :=
  let r1 := stopExistingPreviewServer s
  let r2 := stopDevProcess r1.1
  (r2.1, r1.2 ++ r2.2, true)

/-- OS-level effect of one orchestrator event on the multiset of bound
listener ports. -/
def applyEvent (bound : List Nat) : OrchEvent → List Nat
  | OrchEvent.closeListener p => bound.erase p
  | OrchEvent.bindListener p => bound ++ [p]
  | OrchEvent.killProcess _ => bound

/-- Replay a list of orchestrator events over the bound-listener multiset. -/
def runEvents (bound : List Nat) (evs : List OrchEvent) : List Nat :=
  evs.foldl applyEvent bound

/-- The tracked state agrees with the OS: the bound-listener multiset is
exactly the listener recorded in `previewServer` (empty when none). -/
def listenerConsistent (s : OrchState) (bound : List Nat) : Prop :=
  bound = match s.previewServer with
    | some p => [p]
    | none => []

/-- Any `take` of a one-element list is `[]` or the list itself. -/
theorem take_single_cases {α : Type} (n : Nat) (a : α) :
    List.take n [a] = [] ∨ List.take n [a] = [a] := by
  match n with
  | 0 => exact Or.inl rfl
  | k + 1 => exact Or.inr (by simp)

/-- Any `take` of a two-element list is `[]`, the first element alone, or
the list itself. -/
theorem take_pair_cases {α : Type} (n : Nat) (a b : α) :
    List.take n [a, b] = [] ∨ List.take n [a, b] = [a] ∨ List.take n [a, b] = [a, b] := by
  match n with
  | 0 => exact Or.inl rfl
  | 1 => exact Or.inr (Or.inl rfl)
  | k + 2 => exact Or.inr (Or.inr (by simp))

/-- The events of one `start-preview-server` invocation, from a consistent
state: the teardown events come first (so after any prefix of the events at
most one listener is bound — there is no window with two listeners), and
afterwards the tracked state again agrees with the OS. -/
theorem startPreviewServerSteps_invariant (flow : PreviewFlow) (s : OrchState)
    (bound : List Nat) (hc : listenerConsistent s bound) :
    (∀ n, (runEvents bound ((startPreviewServerSteps flow s).2.take n)).length ≤ 1)
    ∧ listenerConsistent (startPreviewServerSteps flow s).1
        (runEvents bound (startPreviewServerSteps flow s).2) := by
  rcases s with ⟨server, dp, dpi⟩
  have hkill : ∀ (b : List Nat) (h : Nat) (n : Nat),
      runEvents b (List.take n [OrchEvent.killProcess h]) = b := by
    intro b h n
    rcases take_single_cases n (OrchEvent.killProcess h) with ht | ht <;>
      simp [ht, runEvents, applyEvent]
  cases server with
  | none =>
    have hb : bound = [] := hc
    subst hb
    cases flow with
    | devServe u =>
      exact ⟨fun n => by simp [startPreviewServerSteps, stopExistingPreviewServer,
        runEvents], by simp [startPreviewServerSteps, stopExistingPreviewServer,
          runEvents, listenerConsistent]⟩
    | needsRuntime =>
      cases dp with
      | none =>
        exact ⟨fun n => by simp [startPreviewServerSteps, stopExistingPreviewServer,
          stopDevProcess, runEvents], by simp [startPreviewServerSteps,
            stopExistingPreviewServer, stopDevProcess, runEvents, listenerConsistent]⟩
      | some h =>
        cases dpi with
        | none =>
          exact ⟨fun n => by simp [startPreviewServerSteps, stopExistingPreviewServer,
            stopDevProcess, runEvents], by simp [startPreviewServerSteps,
              stopExistingPreviewServer, stopDevProcess, runEvents, listenerConsistent]⟩
        | some info =>
          by_cases hstart : info.startedByApp
          · refine ⟨fun n => ?_, ?_⟩
            · simp only [startPreviewServerSteps, stopExistingPreviewServer,
                stopDevProcess, hstart]
              simp [hkill [] h n]
            · simp [startPreviewServerSteps, stopExistingPreviewServer,
                stopDevProcess, hstart, runEvents, applyEvent, listenerConsistent]
          · refine ⟨fun n => ?_, ?_⟩
            · simp [startPreviewServerSteps, stopExistingPreviewServer,
                stopDevProcess, hstart, runEvents]
            · simp [startPreviewServerSteps, stopExistingPreviewServer,
                stopDevProcess, hstart, runEvents, listenerConsistent]
    | bindStatic port =>
      refine ⟨fun n => ?_, ?_⟩
      · simp only [startPreviewServerSteps, stopExistingPreviewServer, List.nil_append]
        rcases take_single_cases n (OrchEvent.bindListener port) with ht | ht <;>
          simp [ht, runEvents, applyEvent]
      · simp [startPreviewServerSteps, stopExistingPreviewServer, runEvents,
          applyEvent, listenerConsistent]
  | some p =>
    have hb : bound = [p] := hc
    subst hb
    cases flow with
    | devServe u =>
      refine ⟨fun n => ?_, ?_⟩
      · simp only [startPreviewServerSteps, stopExistingPreviewServer]
        rcases take_single_cases n (OrchEvent.closeListener p) with ht | ht <;>
          simp [ht, runEvents, applyEvent]
      · simp [startPreviewServerSteps, stopExistingPreviewServer, runEvents,
          applyEvent, listenerConsistent]
    | needsRuntime =>
      have hclose : runEvents [p] [OrchEvent.closeListener p] = [] := by
        simp [runEvents, applyEvent]
      cases dp with
      | none =>
        refine ⟨fun n => ?_, ?_⟩
        · simp only [startPreviewServerSteps, stopExistingPreviewServer, stopDevProcess,
            List.append_nil]
          rcases take_single_cases n (OrchEvent.closeListener p) with ht | ht <;>
            simp [ht, runEvents, applyEvent]
        · simp [startPreviewServerSteps, stopExistingPreviewServer, stopDevProcess,
            runEvents, applyEvent, listenerConsistent]
      | some h =>
        cases dpi with
        | none =>
          refine ⟨fun n => ?_, ?_⟩
          · simp only [startPreviewServerSteps, stopExistingPreviewServer, stopDevProcess,
              List.append_nil]
            rcases take_single_cases n (OrchEvent.closeListener p) with ht | ht <;>
              simp [ht, runEvents, applyEvent]
          · simp [startPreviewServerSteps, stopExistingPreviewServer, stopDevProcess,
              runEvents, applyEvent, listenerConsistent]
        | some info =>
          by_cases hstart : info.startedByApp
          · refine ⟨fun n => ?_, ?_⟩
            · simp only [startPreviewServerSteps, stopExistingPreviewServer,
                stopDevProcess, hstart, if_pos]
              rcases take_pair_cases n (OrchEvent.closeListener p)
                  (OrchEvent.killProcess h) with ht | ht | ht <;>
                simp [ht, runEvents, applyEvent]
            · simp [startPreviewServerSteps, stopExistingPreviewServer,
                stopDevProcess, hstart, runEvents, applyEvent, listenerConsistent]
          · refine ⟨fun n => ?_, ?_⟩
            · simp only [startPreviewServerSteps, stopExistingPreviewServer,
                stopDevProcess, hstart, if_neg, List.append_nil]
              rcases take_single_cases n (OrchEvent.closeListener p) with ht | ht <;>
                simp [ht, runEvents, applyEvent]
            · simp [startPreviewServerSteps, stopExistingPreviewServer,
                stopDevProcess, hstart, runEvents, applyEvent, listenerConsistent]
    | bindStatic port =>
      refine ⟨fun n => ?_, ?_⟩
      · simp only [startPreviewServerSteps, stopExistingPreviewServer]
        rcases take_pair_cases n (OrchEvent.closeListener p)
            (OrchEvent.bindListener port) with ht | ht | ht <;>
          simp [ht, runEvents, applyEvent]
      · simp [startPreviewServerSteps, stopExistingPreviewServer, runEvents,
          applyEvent, listenerConsistent]

/-! ## Claim C5 -/

/-- C5: two successive `start-preview-server` invocations, run from a state
that agrees with the OS.  After any prefix of the combined event trace at
most one listener is bound — each invocation fully tears the previous
listener down (its close completes and the state is cleared) before any new
listener is bound — and when the second invocation binds a listener,
exactly that one listener is live at the end. -/
theorem startPreview_twice_one_listener (s : OrchState) (bound : List Nat)
    (f1 f2 : PreviewFlow) (hc : listenerConsistent s bound) :
    (∀ n, (runEvents bound
        (((startPreviewServerSteps f1 s).2 ++
          (startPreviewServerSteps f2 (startPreviewServerSteps f1 s).1).2).take n)).length ≤ 1)
    ∧ ∀ port, f2 = PreviewFlow.bindStatic port →
        runEvents bound
          ((startPreviewServerSteps f1 s).2 ++
            (startPreviewServerSteps f2 (startPreviewServerSteps f1 s).1).2) = [port] := by
  obtain ⟨h1pre, h1post⟩ := startPreviewServerSteps_invariant f1 s bound hc
  obtain ⟨h2pre, h2post⟩ :=
    startPreviewServerSteps_invariant f2 (startPreviewServerSteps f1 s).1
      (runEvents bound (startPreviewServerSteps f1 s).2) h1post
  constructor
  · intro n
    rw [List.take_append_eq_append_take]
    rw [runEvents, List.foldl_append]
    by_cases hn : n ≤ (startPreviewServerSteps f1 s).2.length
    · have h0 : n - (startPreviewServerSteps f1 s).2.length = 0 :=
        Nat.sub_eq_zero_of_le hn
      rw [h0]
      simpa [runEvents] using h1pre n
    · have hfull : (startPreviewServerSteps f1 s).2.take n = (startPreviewServerSteps f1 s).2 :=
        List.take_of_length_le (le_of_lt (lt_of_not_le hn))
      rw [hfull]
      simpa [runEvents] using h2pre (n - (startPreviewServerSteps f1 s).2.length)
  · intro port hf2
    subst hf2
    have hs2 : ((startPreviewServerSteps (PreviewFlow.bindStatic port)
        (startPreviewServerSteps f1 s).1).1).previewServer = some port := rfl
    rw [listenerConsistent, hs2] at h2post
    rw [runEvents, List.foldl_append]
    simpa [runEvents] using h2post

/-- Witness for C5: from an empty initial state, binding port 3000 and then
port 3001 leaves exactly the second listener bound. -/
theorem startPreview_twice_one_listener_witness :
    runEvents []
      ((startPreviewServerSteps (PreviewFlow.bindStatic 3000)
          ⟨none, none, none⟩).2 ++
        (startPreviewServerSteps (PreviewFlow.bindStatic 3001)
          (startPreviewServerSteps (PreviewFlow.bindStatic 3000)
            ⟨none, none, none⟩).1).2)
      = [3001] :=
  (startPreview_twice_one_listener ⟨none, none, none⟩ [] (PreviewFlow.bindStatic 3000)
    (PreviewFlow.bindStatic 3001) rfl).2 3001 rfl

/-! ## Claim C7 -/

/-- C7: the `stop-preview-server` handler closes the bound listener when
one is bound, emits a kill only for a process this system started
(`startedByApp = true` in `devProcessInfo`; any kill event in the trace
certifies this), reports success, and is idempotent — running it again from
the resulting state changes nothing, emits no events and still succeeds. -/
theorem stopPreviewServer_spec (s : OrchState) :
    (stopPreviewServerHandler s).2.2 = true
    ∧ (stopPreviewServerHandler s).1.previewServer = none
    ∧ (∀ p, s.previewServer = some p →
        OrchEvent.closeListener p ∈ (stopPreviewServerHandler s).2.1)
    ∧ (∀ h, OrchEvent.killProcess h ∈ (stopPreviewServerHandler s).2.1 →
        s.devProcess = some h ∧
          ∃ info, s.devProcessInfo = some info ∧ info.startedByApp = true)
    ∧ stopPreviewServerHandler (stopPreviewServerHandler s).1
        = ((stopPreviewServerHandler s).1, [], true) := by
  rcases s with ⟨server, dp, dpi⟩
  refine ⟨rfl, ?_, ?_, ?_, ?_⟩
  · cases server <;> rfl
  · intro p hp
    cases server with
    | none => exact Option.noConfusion hp
    | some q =>
      have hq : q = p := Option.some.inj hp
      subst hq
      cases dp <;> cases dpi <;>
        simp [stopPreviewServerHandler, stopExistingPreviewServer, stopDevProcess]
  · intro h hh
    cases dp with
    | none =>
      exfalso
      cases server <;> cases dpi <;>
        simp [stopPreviewServerHandler, stopExistingPreviewServer, stopDevProcess] at hh
    | some h2 =>
      cases dpi with
      | none =>
        exfalso
        cases server <;>
          simp [stopPreviewServerHandler, stopExistingPreviewServer, stopDevProcess] at hh
      | some info =>
        by_cases hstart : info.startedByApp
        · have hh2 : h = h2 := by
            cases server <;>
              simp [stopPreviewServerHandler, stopExistingPreviewServer, stopDevProcess,
                hstart] at hh <;>
              exact hh
          subst hh2
          exact ⟨rfl, info, rfl, hstart⟩
        · exfalso
          cases server <;>
            simp [stopPreviewServerHandler, stopExistingPreviewServer, stopDevProcess,
              hstart] at hh
  · cases server <;> cases dp <;> cases dpi <;> rfl

/-- Witness for C7: with listener 3000 bound, an app-started dev process 7,
stopping closes the listener, kills process 7, succeeds, and a second stop
is a no-op. -/
theorem stopPreviewServer_spec_witness :
    OrchEvent.closeListener 3000 ∈
      (stopPreviewServerHandler
        ⟨some 3000, some 7, some ⟨"/proj", "dev", true⟩⟩).2.1
    ∧ (∃ info, (⟨some 3000, some 7, some ⟨"/proj", "dev", true⟩⟩ : OrchState).devProcessInfo
          = some info ∧ info.startedByApp = true)
    ∧ stopPreviewServerHandler
        (stopPreviewServerHandler ⟨some 3000, some 7, some ⟨"/proj", "dev", true⟩⟩).1
      = ((stopPreviewServerHandler ⟨some 3000, some 7, some ⟨"/proj", "dev", true⟩⟩).1, [], true) := by
  have h := stopPreviewServer_spec ⟨some 3000, some 7, some ⟨"/proj", "dev", true⟩⟩
  have hk := h.2.2.2.1 7 (by decide)
  exact ⟨h.2.2.1 3000 rfl, hk.2, h.2.2.2.2⟩

/-! ## Static preview resolution and SPA fallback (main.js,
resolveStaticTarget and the start-preview-server express setup)

The filesystem is a list of existing file paths; `pathExists` is list
membership.  Node `path.join` is modelled as separator concatenation. -/

/-- Model of `path.join` for the already-normalized paths this code joins. -/
def pathJoin (a b : String) : String := a ++ "/" ++ b

/-- `BUILD_DIR_CANDIDATES = ['dist', 'build', 'public']`. -/
def BUILD_DIR_CANDIDATES : List String := ["dist", "build", "public"]

/-- The static target picked by `resolveStaticTarget`: the served root, the
index document installed as SPA fallback (if any), and the source tag. -/
structure StaticTarget where
  root : String
  indexPath : Option String
  source : String
  deriving DecidableEq, Repr

/-- `pathExists`: `fs.access` succeeds exactly on the recorded paths. -/
def pathExists (fs : List String) (target : String) : Bool := fs.contains target

/-- Embedding of `resolveStaticTarget`: probe `dist/index.html`,
`build/index.html`, `public/index.html` in order (first hit wins, its
directory becomes the root and its index is recorded), then the bare
`index.html` at the project root (recorded with the root index as
`indexPath`), else `null`. -/
def resolveStaticTarget (fs : List String) (basePath : String) : Option StaticTarget :=
  match BUILD_DIR_CANDIDATES.find?
      (fun dirName => pathExists fs (pathJoin (pathJoin basePath dirName) "index.html")) with
  | some dirName =>
    some ⟨pathJoin basePath dirName, some (pathJoin (pathJoin basePath dirName) "index.html"),
      dirName⟩
  | none =>
    if pathExists fs (pathJoin basePath "index.html") then
      some ⟨basePath, some (pathJoin basePath "index.html"), "root-index"⟩
    else
      none

/-- `s.startsWith pre`, computed structurally on the character lists. -/
def strStartsWith (s pre : String) : Bool := pre.data.isPrefixOf s.data

/-- `s.endsWith suf`, computed structurally on the character lists. -/
def strEndsWith (s suf : String) : Bool := suf.data.isSuffixOf s.data

/-- Index of the first occurrence of `pat` in `text`, if any. -/
def findSub (pat : List Char) : List Char → Option Nat
  | [] => if pat.isEmpty then some 0 else none
  | c :: rest =>
    if pat.isPrefixOf (c :: rest) then some 0
    else (findSub pat rest).map (fun i => i + 1)

/-- JavaScript `haystack.includes(needle)`: substring containment. -/
def jsIncludes (haystack needle : String) : Bool :=
  (findSub needle.data haystack.data).isSome

/-- An incoming HTTP request as the middleware sees it: the method, the URL
path, and the `Accept` header (absent headers are `none`). -/
structure PreviewRequest where
  method : String
  urlPath : String
  accept : Option String
  deriving DecidableEq, Repr

/-- What the SPA fallback middleware does with a request. -/
inductive MiddlewareAction where
  | next
  | sendIndex (path : String)
  deriving DecidableEq, Repr

/-- Embedding of the SPA fallback middleware installed when
`target.indexPath` is set: non-GET requests call `next()`; the accept
header defaults to the empty string; a non-empty accept without
`text/html` calls `next()`; otherwise the index document is sent. -/
def spaFallbackMiddleware (indexPath : String) (req : PreviewRequest) :
    MiddlewareAction :=
  if req.method ≠ "GET" then MiddlewareAction.next
  else
    let accept := req.accept.getD ""
    if accept ≠ "" ∧ jsIncludes accept "text/html" = false then MiddlewareAction.next
    else MiddlewareAction.sendIndex indexPath

/-- Response of the preview express app to one request. -/
inductive PreviewResponse where
  | file (path : String)
  | index (path : String)
  | notFound
  deriving DecidableEq, Repr

/-- The express chain for a resolved target: `express.static(target.root)`
(modelled as an exact-path file lookup under the root), then, only when
`target.indexPath` is set, the SPA fallback middleware; a request passed
through everything is a 404. -/
def serveRequest (fs : List String) (target : StaticTarget) (req : PreviewRequest) :
    PreviewResponse :=
  if pathExists fs (target.root ++ req.urlPath) then
    PreviewResponse.file (target.root ++ req.urlPath)
  else
    match target.indexPath with
    | some idx =>
      match spaFallbackMiddleware idx req with
      | MiddlewareAction.sendIndex p => PreviewResponse.index p
      | MiddlewareAction.next => PreviewResponse.notFound
    | none => PreviewResponse.notFound

/-- The result of the static-serving tail of the `start-preview-server`
handler (the branch taken when a static target resolved, or when neither a
static target nor a usable dev script exists): the served root and the
returned `spaFallback` flag, which is `Boolean(target.indexPath)`. -/
structure StaticServeResult where
  servedFrom : String
  spaFallback : Bool
  target : StaticTarget
  deriving DecidableEq, Repr

/-- How the `start-preview-server` handler resolves a folder, given whether
`package.json` declares a usable `dev`/`start` script: a resolved static
target is served directly; otherwise with a script the dev-server flow
runs (not modelled further here); otherwise the raw folder is served with
`indexPath: null`, so no fallback middleware is installed. -/
inductive StartPreviewResolution where
  | staticServe (r : StaticServeResult)
  | devFlow
  deriving DecidableEq, Repr

/-- Embedding of the resolution part of `start-preview-server`. -/
def startPreviewResolve (fs : List String) (folderPath : String)
    (hasDevScript : Bool) : StartPreviewResolution :=
  match resolveStaticTarget fs folderPath with
  | some t => StartPreviewResolution.staticServe ⟨t.root, t.indexPath.isSome, t⟩
  | none =>
    if hasDevScript then StartPreviewResolution.devFlow
    else
      StartPreviewResolution.staticServe
        ⟨folderPath, false, ⟨folderPath, none, "raw-root"⟩⟩

/-! ## Claim C1 -/

/-- C1 counterexample: a project whose only index is a bare `index.html`
at the root.  The handler serves the root with the SPA fallback
*installed*: the returned `spaFallback` flag is `true`, and a GET for a
non-existent route from an HTML-accepting client receives the index
content — the claim asserts the flag is `false` and the index is not
returned. -/
theorem bare_root_index_installs_spa_fallback :
    startPreviewResolve ["/proj/index.html"] "/proj" false
      = StartPreviewResolution.staticServe
          ⟨"/proj", true, ⟨"/proj", some "/proj/index.html", "root-index"⟩⟩
    ∧ serveRequest ["/proj/index.html"]
        ⟨"/proj", some "/proj/index.html", "root-index"⟩
        ⟨"GET", "/missing-route", some "text/html"⟩
      = PreviewResponse.index "/proj/index.html"
    ∧ (true : Bool) ≠ false := by
  refine ⟨by decide, by decide, by decide⟩

/-- C1 amended: for every folder whose static resolution finds only a bare
`index.html` at the project root (no `dist/`, `build/` or `public/`
index), `start-preview-server` serves the project root **with** SPA
fallback installed: the returned `spaFallback` flag is `true` and a GET
for a non-matching route from an HTML-accepting client receives the root
index document.  (No fallback is installed only in the raw-root case,
when no `index.html` is found at all.) -/
theorem bare_root_index_spa_fallback_enabled (fs : List String)
    (folderPath : String) (hasDevScript : Bool) (req : PreviewRequest)
    (hdist : pathExists fs (pathJoin (pathJoin folderPath "dist") "index.html") = false)
    (hbuild : pathExists fs (pathJoin (pathJoin folderPath "build") "index.html") = false)
    (hpublic : pathExists fs (pathJoin (pathJoin folderPath "public") "index.html") = false)
    (hroot : pathExists fs (pathJoin folderPath "index.html") = true)
    (hmethod : req.method = "GET")
    (haccept : req.accept = none ∨ req.accept = some ""
      ∨ ∃ a, req.accept = some a ∧ jsIncludes a "text/html" = true)
    (hmiss : pathExists fs (folderPath ++ req.urlPath) = false) :
    startPreviewResolve fs folderPath hasDevScript
      = StartPreviewResolution.staticServe
          ⟨folderPath, true, ⟨folderPath, some (pathJoin folderPath "index.html"), "root-index"⟩⟩
    ∧ serveRequest fs ⟨folderPath, some (pathJoin folderPath "index.html"), "root-index"⟩ req
      = PreviewResponse.index (pathJoin folderPath "index.html") := by
  have hres : resolveStaticTarget fs folderPath
      = some ⟨folderPath, some (pathJoin folderPath "index.html"), "root-index"⟩ := by
    simp [resolveStaticTarget, BUILD_DIR_CANDIDATES, List.find?, hdist, hbuild, hpublic, hroot]
  constructor
  · simp [startPreviewResolve, hres]
  · have hmw : spaFallbackMiddleware (pathJoin folderPath "index.html") req
        = MiddlewareAction.sendIndex (pathJoin folderPath "index.html") := by
      rcases haccept with ha | ha | ⟨a, ha, hinc⟩
      · simp [spaFallbackMiddleware, hmethod, ha]
      · simp [spaFallbackMiddleware, hmethod, ha]
      · simp [spaFallbackMiddleware, hmethod, ha, hinc]
    simp [serveRequest, hmiss, hmw]

/-- Witness for the amended C1 at a concrete one-file project. -/
theorem bare_root_index_spa_fallback_enabled_witness :
    startPreviewResolve ["/proj/index.html"] "/proj" true
      = StartPreviewResolution.staticServe
          ⟨"/proj", true, ⟨"/proj", some "/proj/index.html", "root-index"⟩⟩
    ∧ serveRequest ["/proj/index.html"]
        ⟨"/proj", some "/proj/index.html", "root-index"⟩
        ⟨"GET", "/about", none⟩
      = PreviewResponse.index "/proj/index.html" :=
  bare_root_index_spa_fallback_enabled ["/proj/index.html"] "/proj" true
    ⟨"GET", "/about", none⟩ (by decide) (by decide) (by decide) (by decide) rfl
    (Or.inl rfl) (by decide)

/-! ## Claim C10 -/

/-- C10: the SPA fallback middleware applies only to GET requests — a
non-GET request is passed through and never receives the index; a GET with
a missing or empty `Accept` header is treated as HTML-accepting and
receives the index; a GET whose non-empty `Accept` header does not contain
`text/html` is passed through without the index. -/
theorem spaFallbackMiddleware_spec (indexPath : String) (req : PreviewRequest) :
    (req.method ≠ "GET" → spaFallbackMiddleware indexPath req = MiddlewareAction.next)
    ∧ (req.method = "GET" → (req.accept = none ∨ req.accept = some "") →
        spaFallbackMiddleware indexPath req = MiddlewareAction.sendIndex indexPath)
    ∧ (∀ a, req.method = "GET" → req.accept = some a → a ≠ "" →
        jsIncludes a "text/html" = false →
        spaFallbackMiddleware indexPath req = MiddlewareAction.next) := by
  refine ⟨fun hm => ?_, fun hm ha => ?_, fun a hm ha hne hinc => ?_⟩
  · simp [spaFallbackMiddleware, hm]
  · rcases ha with ha | ha <;> simp [spaFallbackMiddleware, hm, ha]
  · simp [spaFallbackMiddleware, hm, ha, hne, hinc]

/-- Witness for C10: a POST passes through, a GET without an Accept header
receives the index, and a GET accepting only JSON passes through. -/
theorem spaFallbackMiddleware_spec_witness :
    spaFallbackMiddleware "/proj/index.html" ⟨"POST", "/x", some "text/html"⟩
      = MiddlewareAction.next
    ∧ spaFallbackMiddleware "/proj/index.html" ⟨"GET", "/x", none⟩
      = MiddlewareAction.sendIndex "/proj/index.html"
    ∧ spaFallbackMiddleware "/proj/index.html" ⟨"GET", "/x", some "application/json"⟩
      = MiddlewareAction.next :=
  ⟨(spaFallbackMiddleware_spec "/proj/index.html" ⟨"POST", "/x", some "text/html"⟩).1
      (by decide),
    (spaFallbackMiddleware_spec "/proj/index.html" ⟨"GET", "/x", none⟩).2.1
      rfl (Or.inl rfl),
    (spaFallbackMiddleware_spec "/proj/index.html" ⟨"GET", "/x", some "application/json"⟩).2.2
      "application/json" rfl rfl (by decide) (by decide)⟩

/-! ## Multi-file response parser (execute-build handler)

The header dialects are the four JavaScript regexes; each is embedded as a
direct string matcher with the same backtracking semantics on the inputs
the loop distinguishes.  Lines come from `response.split('\n')`, so they
contain no newline characters. -/

/-- JavaScript `\s` (and `String.prototype.trim`) on the ASCII whitespace
characters that can occur in these responses. -/
def jsIsSpace (c : Char) : Bool :=
  c = ' ' || c = '\t' || c = '\n' || c = '\r' || c = '\x0b' || c = '\x0c'

/-- JavaScript `trim`: drop whitespace from both ends. -/
def trimChars (cs : List Char) : List Char :=
  ((cs.dropWhile jsIsSpace).reverse.dropWhile jsIsSpace).reverse

/-- `trim` on strings. -/
def jsTrim (s : String) : String := String.mk (trimChars s.data)

/-- Match a literal prefix, returning the rest of the input. -/
def stripPrefixLit : List Char → List Char → Option (List Char)
  | [], cs => some cs
  | _ :: _, [] => none
  | p :: ps, c :: cs => if p = c then stripPrefixLit ps cs else none

/-- Match a literal prefix case-insensitively (the `/i` regex flag),
returning the rest of the input. -/
def stripPrefixCI : List Char → List Char → Option (List Char)
  | [], cs => some cs
  | _ :: _, [] => none
  | p :: ps, c :: cs => if p.toLower = c.toLower then stripPrefixCI ps cs else none

/-- The lazy group of `(.+?)===`: the shortest nonempty prefix that is
followed by a literal `===`. -/
def lazyCaptureUntilEqs : List Char → Option (List Char)
  | [] => none
  | c :: rest =>
    if "===".data.isPrefixOf rest then some [c]
    else (lazyCaptureUntilEqs rest).map (fun cap => c :: cap)

/-- The group of `\s*(.+)` applied to a nonempty input: greedy whitespace
skip, backtracking one character when the input is all whitespace so that
`(.+)` can still take one character. -/
def captureTail (r : List Char) : List Char :=
  let w := (r.takeWhile jsIsSpace).length
  r.drop (min w (r.length - 1))

/-- The backtracking of `.*:` followed by `f`: the rightmost colon whose
remainder satisfies `f` wins. -/
def greedyColonCapture (f : List Char → Option (List Char)) :
    List Char → Option (List Char)
  | [] => none
  | c :: rest =>
    match greedyColonCapture f rest with
    | some cap => some cap
    | none => if c = ':' then f rest else none

/-- Dialect 1, `/^===\s*FILE:\s*(.+?)===/i`.  (When the only `===` sits
immediately after the whitespace run, the JS engine backtracks `\s*` and
captures a lone whitespace character, which trims to the empty string and
is falsy in the loop; this embedding returns `none` there, which the loop
treats identically.) -/
def pattern1 (cs : List Char) : Option (List Char) :=
  match stripPrefixLit "===".data cs with
  | none => none
  | some r1 =>
    match stripPrefixCI "file:".data (r1.dropWhile jsIsSpace) with
    | none => none
    | some r2 => lazyCaptureUntilEqs (r2.dropWhile jsIsSpace)

/-- Dialect 2, `/^###\s*FILE.*:\s*(.+)/i`. -/
def pattern2 (cs : List Char) : Option (List Char) :=
  match stripPrefixLit "###".data cs with
  | none => none
  | some r1 =>
    match stripPrefixCI "file".data (r1.dropWhile jsIsSpace) with
    | none => none
    | some r2 =>
      greedyColonCapture
        (fun rest => if rest.isEmpty then none else some (captureTail rest)) r2

/-- Dialect 3, `/^\*\*\s*File.*:\s*\*\*\s*(.+)/i`. -/
def pattern3 (cs : List Char) : Option (List Char) :=
  match stripPrefixLit "**".data cs with
  | none => none
  | some r1 =>
    match stripPrefixCI "file".data (r1.dropWhile jsIsSpace) with
    | none => none
    | some r2 =>
      greedyColonCapture
        (fun rest =>
          match stripPrefixLit "**".data (rest.dropWhile jsIsSpace) with
          | none => none
          | some r3 => if r3.isEmpty then none else some (captureTail r3)) r2

/-- Dialect 4, `/^File.*:\s*(.+)/i`. -/
def pattern4 (cs : List Char) : Option (List Char) :=
  match stripPrefixCI "file".data cs with
  | none => none
  | some r1 =>
    greedyColonCapture
      (fun rest => if rest.isEmpty then none else some (captureTail rest)) r1

/-- The cleanup applied to a raw header capture:
`.replace(/===$/, '').trim().replace(/^\x60+|\x60+$/g, '')` — drop one
trailing `===`, trim, then strip leading and trailing backtick runs. -/
def cleanCapture (cap : List Char) : List Char :=
  let c1 := if "===".data.isSuffixOf cap then cap.take (cap.length - 3) else cap
  let c2 := trimChars c1
  let c3 := c2.dropWhile (fun c => c = '\x60')
  (c3.reverse.dropWhile (fun c => c = '\x60')).reverse

/-- Embedding of `matchHeader`: try the four dialects in order and clean
the first capture. -/
def matchHeader (line : String) : Option String :=
  let raw :=
    match pattern1 line.data with
    | some cap => some cap
    | none =>
      match pattern2 line.data with
      | some cap => some cap
      | none =>
        match pattern3 line.data with
        | some cap => some cap
        | none => pattern4 line.data
  raw.map (fun cap => String.mk (cleanCapture cap))

/-- The JS truthiness test `if (filename)` on the matcher result: the
cleaned name, with both a failed match and an empty cleaned capture giving
the falsy empty string. -/
def headerName (line : String) : String := (matchHeader line).getD ""

/-- Embedding of `matchFooter`: the trimmed line is an explicit end marker
or a bare code fence. -/
def matchFooter (line : String) : Bool :=
  let t := jsTrim line
  t = "===END FILE===" || t = "=== END FILE ===" || t = "```"

/-- A line skipped by the look-ahead after a header: blank once trimmed, or
an opening code fence. -/
def isPreambleLine (line : String) : Bool :=
  let t := jsTrim line
  t = "" || strStartsWith t "```"

/-- `currentContent.join` with newline separator. -/
def joinLines : List String → String
  | [] => ""
  | [l] => l
  | l :: rest => l ++ "\n" ++ joinLines rest

/-- Dropping a prefix never lengthens a list. -/
theorem dropWhile_length_le {α : Type} (p : α → Bool) (l : List α) :
    (l.dropWhile p).length ≤ l.length := by
  induction l with
  | nil => simp [List.dropWhile]
  | cons a l ih =>
    by_cases h : p a
    · rw [List.dropWhile_cons_of_pos h]
      exact Nat.le_succ_of_le ih
    · rw [List.dropWhile_cons_of_neg h]

/-- JavaScript `response.split('\n')`: split at every newline, keeping
empty segments (the empty string splits to one empty segment). -/
def splitLinesAux : List Char → List Char → List String
  | [], acc => [String.mk acc.reverse]
  | c :: rest, acc =>
    if c = '\n' then String.mk acc.reverse :: splitLinesAux rest []
    else splitLinesAux rest (c :: acc)

/-- `splitLinesAux` on strings. -/
def splitLines (s : String) : List String := splitLinesAux s.data []

/-- Embedding of the parsing loop of the `execute-build` handler.  State:
the remaining lines, `currentFile` and `currentContent`.  A (truthy) header
flushes any open file, opens the new one and skips the preamble; a footer
flushes and closes the open file; other lines accumulate while a file is
open; at end of stream an open file is flushed only when
`currentContent.length > 0`. -/
def parseLoop : List String → Option String → List String → List (String × String)
  | [], cur, content =>
    (match cur with
      | some f => if 0 < content.length then [(f, joinLines content)] else []
      | none => [])
  | line :: rest, cur, content =>
    if headerName line ≠ "" then
      (match cur with
        | some f => [(f, joinLines content)]
        | none => []) ++
        parseLoop (rest.dropWhile isPreambleLine) (some (headerName line)) []
    else
      match cur with
      | some f =>
        if matchFooter line then
          (f, joinLines content) :: parseLoop rest none []
        else
          parseLoop rest (some f) (content ++ [line])
      | none => parseLoop rest none content
termination_by lines _ _ => lines.length
decreasing_by
  · exact Nat.lt_succ_of_le (dropWhile_length_le isPreambleLine rest)
  · exact Nat.lt_succ_of_le (Nat.le_refl rest.length)
  · exact Nat.lt_succ_of_le (Nat.le_refl rest.length)
  · exact Nat.lt_succ_of_le (Nat.le_refl rest.length)

/-- The ordered (relativePath, content) pairs the parser extracts from a
generation response. -/
def parseFiles (response : String) : List (String × String) :=
  parseLoop (splitLines response) none []

/-! ## stripCodeFences and path resolution (main.js, stripCodeFences and
the saveParsedFile helper of the execute-build handler) -/

/-- `[a-zA-Z]`. -/
def isAsciiAlpha (c : Char) : Bool :=
  ('a' ≤ c && c ≤ 'z') || ('A' ≤ c && c ≤ 'Z')

/-- Embedding of `stripCodeFences`: find the first lazily-matched
fenced block; if none, return the trimmed text; otherwise drop
the opening fence with an optional language tag and newline, drop the
closing fence, and trim. -/
def stripCodeFences (text : String) : String :=
  let cs := text.data
  let fence := "```".data
  match findSub fence cs with
  | none => String.mk (trimChars cs)
  | some i =>
    match findSub fence (cs.drop (i + 3)) with
    | none => String.mk (trimChars cs)
    | some k =>
      let block := (cs.drop i).take (k + 6)
      let b1 := (block.drop 3).dropWhile isAsciiAlpha
      let b2 := match b1 with
        | '\n' :: t => t
        | _ => b1
      let b3 := if fence.isSuffixOf b2 then b2.take (b2.length - 3) else b2
      String.mk (trimChars b3)

/-- POSIX `path.isAbsolute`. -/
def jsIsAbsolute (p : String) : Bool := strStartsWith p "/"

/-- The path cleanup `relativePath.replace(/^[.\/\\]+/, '')`: drop the
maximal leading run of dot, slash and backslash characters. -/
def stripLeadingJunk (p : String) : String :=
  String.mk (p.data.dropWhile (fun c => c = '.' || c = '/' || c = '\\'))

/-- The slice of `detectProjectStructure`'s result that `saveParsedFile`
consults. -/
structure ProjectStructure where
  suggestedOutputDir : String
  deriving DecidableEq, Repr

/-- The path-resolution logic of `saveParsedFile`: an absolute path is used
verbatim; a path under `componentAI/` is joined to the project folder;
otherwise the cleaned path goes under the suggested output directory,
except that an output directory ending in `src` combined with a cleaned
path starting with `src/` is joined to the project folder instead (the
`src/src` avoidance). -/
def resolveTargetPath (relativePath folderPath : String) (ps : ProjectStructure) :
    String :=
  if jsIsAbsolute relativePath then relativePath
  else if strStartsWith relativePath "componentAI/" then pathJoin folderPath relativePath
  else
    let cleanPath := stripLeadingJunk relativePath
    if strEndsWith ps.suggestedOutputDir "src" && strStartsWith cleanPath "src/" then
      pathJoin folderPath cleanPath
    else
      pathJoin ps.suggestedOutputDir cleanPath

/-- Model of `path.relative(folderPath, fullPath)` for the shapes produced
here: strip the folder prefix when present. -/
def jsPathRelative (folderPath fullPath : String) : String :=
  if strStartsWith fullPath (folderPath ++ "/") then
    String.mk (fullPath.data.drop (folderPath.length + 1))
  else fullPath

/-- One entry of `createdFiles`. -/
structure ManifestEntry where
  path : String
  fullPath : String
  deriving DecidableEq, Repr

/-- Embedding of `saveParsedFile` with filesystem writes always succeeding:
the manifest entry it records and the (path, cleanContent) write it
performs. -/
def saveParsedFile (relativePath content folderPath : String)
    (ps : ProjectStructure) : ManifestEntry × (String × String) :=
  let cleanContent := stripCodeFences content
  let fullPath := resolveTargetPath relativePath folderPath ps
  (⟨jsPathRelative folderPath fullPath, fullPath⟩, (fullPath, cleanContent))

/-- The result object of the `execute-build` handler. -/
structure BuildResult where
  success : Bool
  error : Option String
  files : List ManifestEntry
  deriving DecidableEq, Repr

/-- Embedding of the tail of the `execute-build` handler, from the joined
and trimmed generation response onwards (writes always succeed): parse,
save every parsed file, and if zero files were created write the whole
response to `build-output.txt` in the project root and report failure
naming that file; otherwise report success with the manifest.  The second
component lists the performed filesystem writes in order. -/
def executeBuildFromResponse (response folderPath : String)
    (ps : ProjectStructure) : BuildResult × List (String × String) :=
  let saved := (parseFiles response).map
    (fun pc => saveParsedFile pc.1 pc.2 folderPath ps)
  let createdFiles := saved.map (fun e => e.1)
  let writes := saved.map (fun e => e.2)
  if createdFiles.length = 0 then
    (⟨false, some "Could not parse generated files. Raw output saved to build-output.txt", []⟩,
      writes ++ [(pathJoin folderPath "build-output.txt", response)])
  else
    (⟨true, none, createdFiles⟩, writes)

/-! ## Claim C2 -/

/-- C2: when zero files are parsed (and hence zero are written), the
`execute-build` handler writes the entire verbatim response to the single
sentinel file `build-output.txt` in the project root and returns a failure
whose error message names that file — the response is never discarded. -/
theorem executeBuild_sentinel_on_zero_files (response folderPath : String)
    (ps : ProjectStructure) (hparse : parseFiles response = []) :
    (executeBuildFromResponse response folderPath ps).1.success = false
    ∧ (executeBuildFromResponse response folderPath ps).1.error
      = some "Could not parse generated files. Raw output saved to build-output.txt"
    ∧ (executeBuildFromResponse response folderPath ps).2
      = [(pathJoin folderPath "build-output.txt", response)] := by
  refine ⟨?_, ?_, ?_⟩ <;> simp [executeBuildFromResponse, hparse]

/-- The concrete headerless response parses to no files (evaluated through
the loop's equations, since the loop recurses on a shortened line list). -/
theorem parseFiles_no_headers_eval : parseFiles "no recognizable headers" = [] := by
  have hs : splitLines "no recognizable headers" = ["no recognizable headers"] := by decide
  have hh : headerName "no recognizable headers" = "" := by decide
  rw [parseFiles, hs, parseLoop, if_neg (by simp [hh]), parseLoop]

/-- Witness for C2 on a response with no recognizable header. -/
theorem executeBuild_sentinel_on_zero_files_witness :
    (executeBuildFromResponse "no recognizable headers" "/proj" ⟨"/proj/src"⟩).1.success = false
    ∧ (executeBuildFromResponse "no recognizable headers" "/proj" ⟨"/proj/src"⟩).1.error
      = some "Could not parse generated files. Raw output saved to build-output.txt"
    ∧ (executeBuildFromResponse "no recognizable headers" "/proj" ⟨"/proj/src"⟩).2
      = [(pathJoin "/proj" "build-output.txt", "no recognizable headers")] :=
  executeBuild_sentinel_on_zero_files "no recognizable headers" "/proj" ⟨"/proj/src"⟩
    parseFiles_no_headers_eval

/-! ## Claim C3 -/

/-- The stripping step exactly as the claim words it: repeatedly remove a
leading `./`, `../`, or path separator (`/` or `\x5c`). -/
def claimStripTokensAux : List Char → List Char
  | '.' :: '.' :: '/' :: rest => claimStripTokensAux rest
  | '.' :: '/' :: rest => claimStripTokensAux rest
  | '/' :: rest => claimStripTokensAux rest
  | '\\' :: rest => claimStripTokensAux rest
  | l => l

/-- `claimStripTokensAux` on strings. -/
def claimStripTokens (p : String) : String := String.mk (claimStripTokensAux p.data)

/-- The resolution rule exactly as claim C3 words it, differing from the
source only in the stripping step. -/
def claimResolveTargetPath (relativePath folderPath : String)
    (ps : ProjectStructure) : String :=
  if jsIsAbsolute relativePath then relativePath
  else if strStartsWith relativePath "componentAI/" then pathJoin folderPath relativePath
  else
    let cleanPath := claimStripTokens relativePath
    if strEndsWith ps.suggestedOutputDir "src" && strStartsWith cleanPath "src/" then
      pathJoin folderPath cleanPath
    else
      pathJoin ps.suggestedOutputDir cleanPath

/-- C3 counterexample: the source strips the maximal leading run of the
characters dot, slash and backslash, not just the tokens `./`, `../` and
separators, so the dotfile path `.env` is resolved to `env` under the
output directory, while the claim resolution keeps `.env`. -/
theorem resolveTargetPath_dotfile_differs_from_claim :
    resolveTargetPath ".env" "/proj" ⟨"/proj/out"⟩ = "/proj/out/env"
    ∧ claimResolveTargetPath ".env" "/proj" ⟨"/proj/out"⟩ = "/proj/out/.env"
    ∧ resolveTargetPath ".env" "/proj" ⟨"/proj/out"⟩
        ≠ claimResolveTargetPath ".env" "/proj" ⟨"/proj/out"⟩ := by
  refine ⟨by decide, by decide, by decide⟩

/-- The stripping step as the amended claim words it: remove the maximal
leading run of dot, slash and backslash characters. -/
def amendedStripAux : List Char → List Char
  | [] => []
  | c :: rest =>
    if c = '.' ∨ c = '/' ∨ c = '\\' then amendedStripAux rest else c :: rest

/-- `amendedStripAux` on strings. -/
def amendedStrip (p : String) : String := String.mk (amendedStripAux p.data)

/-- The resolution rule as the amended claim words it. -/
def amendedResolveTargetPath (relativePath folderPath : String)
    (ps : ProjectStructure) : String :=
  if jsIsAbsolute relativePath then relativePath
  else if strStartsWith relativePath "componentAI/" then pathJoin folderPath relativePath
  else
    let cleanPath := amendedStrip relativePath
    if strEndsWith ps.suggestedOutputDir "src" && strStartsWith cleanPath "src/" then
      pathJoin folderPath cleanPath
    else
      pathJoin ps.suggestedOutputDir cleanPath

/-- The source stripping equals the amended wording. -/
theorem stripLeadingJunk_eq_amended (p : String) :
    stripLeadingJunk p = amendedStrip p := by
  unfold stripLeadingJunk amendedStrip
  congr 1
  induction p.data with
  | nil => rfl
  | cons c rest ih =>
    by_cases hc : c = '.' ∨ c = '/' ∨ c = '\\'
    · have hb : (c = '.' || c = '/' || c = '\\') = true := by
        rcases hc with h | h | h <;> simp [h]
      rw [List.dropWhile_cons, amendedStripAux, if_pos hc]
      simp only [hb, if_true]
      exact ih
    · have hb : (c = '.' || c = '/' || c = '\\') = false := by
        push_neg at hc
        simp [hc.1, hc.2.1, hc.2.2]
      rw [List.dropWhile_cons, amendedStripAux, if_neg hc]
      simp [hb]

/-- C3 amended: for every parsed file, an absolute path is used verbatim; a
path starting with `componentAI/` is rooted under the project root; any
other path has its maximal leading run of `.`, `/` and `\x5c` characters
stripped and is rooted under the detected output directory, except that
when that directory ends in `src` and the stripped path starts with `src/`
the path is rooted directly under the project root. -/
theorem resolveTargetPath_matches_amended_claim (p folderPath : String)
    (ps : ProjectStructure) :
    resolveTargetPath p folderPath ps = amendedResolveTargetPath p folderPath ps := by
  unfold resolveTargetPath amendedResolveTargetPath
  rw [stripLeadingJunk_eq_amended]

/-! ## Claim C8 -/

/-- C8 counterexample: a response whose last line opens a file (the header
matches and the name `a.txt` is truthy) and then ends.  No content line was
accumulated, so the end-of-stream flush (`currentFile &&
currentContent.length > 0`) drops the open file: the parser output is
empty, although the claim requires the open file to be flushed. -/
theorem parse_open_file_at_end_without_content_dropped :
    matchHeader "===FILE: a.txt===" = some "a.txt"
    ∧ parseFiles "===FILE: a.txt===" = [] := by
  refine ⟨by decide, ?_⟩
  have hs : splitLines "===FILE: a.txt===" = ["===FILE: a.txt==="] := by decide
  have hh : headerName "===FILE: a.txt===" = "a.txt" := by decide
  rw [parseFiles, hs, parseLoop, if_pos (by simp [hh])]
  rw [show List.dropWhile isPreambleLine [] = [] from rfl, parseLoop]
  simp

/-- C8 amended: if the stream ends while a file is open and at least one
content line has been accumulated, the open file is flushed as the final
parsed file with its accumulated content; an open file with no accumulated
content lines is dropped.  Stated over the loop: from an open-file state,
trailing lines that are neither truthy headers nor footers all accumulate
and are flushed at end of stream. -/
theorem parseLoop_flushes_open_file_at_end (lines : List String) (f : String)
    (content : List String)
    (hnh : ∀ l ∈ lines, headerName l = "")
    (hnf : ∀ l ∈ lines, matchFooter l = false)
    (hne : content ++ lines ≠ []) :
    parseLoop lines (some f) content = [(f, joinLines (content ++ lines))] := by
  induction lines generalizing content with
  | nil =>
    rw [List.append_nil] at hne
    have hlen : 0 < content.length := List.length_pos.mpr hne
    simp [parseLoop, hlen]
  | cons l rest ih =>
    have h1 : headerName l = "" := hnh l (List.mem_cons_self l rest)
    have h2 : matchFooter l = false := hnf l (List.mem_cons_self l rest)
    rw [parseLoop]
    simp only [h1, h2, ne_eq, not_true_eq_false, if_false, Bool.false_eq_true]
    have := ih (content ++ [l]) (fun x hx => hnh x (List.mem_cons_of_mem l hx))
      (fun x hx => hnf x (List.mem_cons_of_mem l hx)) (by simp)
    rw [this]
    simp

/-- Witness for the amended C8: a header line followed by one content line
and end of stream yields the flushed file. -/
theorem parseLoop_flushes_open_file_at_end_witness :
    parseLoop ["hello"] (some "a.txt") [] = [("a.txt", "hello")] := by
  have h := parseLoop_flushes_open_file_at_end ["hello"] "a.txt" []
    (by decide) (by decide) (by decide)
  simpa [joinLines] using h

end VT
